import Mathlib

/-!
Shallow embedding of the checkout and discount-resolution core of the
`marketplace` Django application (files `marketplace/models.py` and
`marketplace/views.py`).

Monetary values are fixed-point decimals in the source (`DecimalField`
with 2 decimal places for prices, discounts being fractions with 2
decimal places).  We embed them as integers at explicit scales:

* `priceCents` — a product price in hundredths of a currency unit
  (`Decimal` with 2 places, times 100);
* `discount100` — a discount fraction times 100 (so `0.10` becomes `10`);
* `price_e4` / `total_e4` — amounts at scale `10^-4`: the source computes
  `final_price = price * (Decimal("1.00") - discount)` without rounding,
  which carries 4 decimal places, i.e. `priceCents * (100 - discount100)`
  at scale `10^-4`.

Timestamps (`start_date`, `end_date`, "now") are embedded as integers.
`available_items` is a `PositiveIntegerField` in the source; it is
embedded as `Int` so that the non-negativity invariant is a provable
property rather than a typing artefact.
-/

namespace Marketplace

/-- Embeds `marketplace.models.Product`: id, name, unit price (cents),
stock counter `available_items`, and the ids of the categories the
product belongs to (the `categories` many-to-many relation). -/
structure Product where
  id : Nat
  name : String
  priceCents : Int
  availableItems : Int
  categories : List Nat
deriving Repr, DecidableEq

instance : Inhabited Product := ⟨⟨0, "", 0, 0, []⟩⟩

/-- Embeds `marketplace.models.Sale`: discount fraction (times 100),
active window `[startDate, endDate]`, the target sets `products` and
`categories`, and the audience restriction sets `allowed_users` and
`allowed_groups` (by id). -/
structure Sale where
  discount100 : Int
  startDate : Int
  endDate : Int
  productIds : List Nat
  categoryIds : List Nat
  allowedUsers : List Nat
  allowedGroups : List Nat
deriving Repr, DecidableEq

/-- An authenticated user: id and the ids of the groups the user belongs
to.  An anonymous requester is represented as `Option.none` at use sites
(mirroring `if user and user.is_authenticated` in the source). -/
structure User where
  id : Nat
  groups : List Nat
deriving Repr, DecidableEq

/-- Embeds `marketplace.models.BucketProduct`: one bucket line item,
a `(product, number)` pair.  The bucket itself is a list of these. -/
structure LineItem where
  productId : Nat
  number : Nat
deriving Repr, DecidableEq

/-- Embeds `marketplace.models.OrderItem`: the snapshot of a purchased
product (product id, name, discounted unit price at scale `10^-4`,
discount fraction times 100, quantity). -/
structure OrderItem where
  productId : Nat
  name : String
  price_e4 : Int
  discount100 : Int
  number : Nat
deriving Repr, DecidableEq

/-- Embeds `marketplace.models.Order`: the order total (scale `10^-4`,
as accumulated in memory by `create_order`) and its order items. -/
structure Order where
  total_e4 : Int
  items : List OrderItem
deriving Repr, DecidableEq

/-- The persistent state visible to the embedded operations, for one
user: the product table, the sale table, the user's bucket (`none` when
no `Bucket` row exists, `some items` otherwise) and the user's orders. -/
structure State where
  products : List Product
  sales : List Sale
  bucket : Option (List LineItem)
  orders : List Order
deriving Repr, DecidableEq

/-- Looks a product up by id (a foreign-key dereference).  Defaults to
the inhabited product when the id is dangling; the theorems below carry
existence hypotheses where this matters. -/
def getProduct (st : State) (pid : Nat) : Product :=
  (st.products.find? (fun p => p.id = pid)).getD default

/-- A sale's active-window test, from `models.py` lines 54-57:
`start_date__lte=now, end_date__gte=now`. -/
def saleActive (now : Int) (s : Sale) : Bool :=
  decide (s.startDate ≤ now) && decide (s.endDate ≥ now)

/-- A sale with no audience restriction, from the filter
`allowed_users__isnull=True, allowed_groups__isnull=True`. -/
def saleIsPublic (s : Sale) : Bool :=
  s.allowedUsers.isEmpty && s.allowedGroups.isEmpty

/-- Embeds `Sale.is_closed_sale` (`models.py` lines 155-157): the sale
restricts its audience to specific users or groups. -/
def Sale.is_closed_sale (s : Sale) : Bool :=
  !s.allowedUsers.isEmpty || !s.allowedGroups.isEmpty

/-- The authenticated-user applicability filter from `models.py`
lines 61-67: `Q(allowed_users=user) | Q(allowed_groups__in=user_groups)
| Q(allowed_users__isnull=True, allowed_groups__isnull=True)`. -/
def saleAllowsUser (s : Sale) (u : User) : Bool :=
  s.allowedUsers.contains u.id
    || s.allowedGroups.any (fun g => u.groups.contains g)
    || saleIsPublic s

/-- The candidate sales of a product, from `self.sales` in
`Product.get_best_discount` (`models.py` line 54): `self.sales` is the
reverse accessor of `Sale.products`, so it contains exactly the sales
that list the product directly in their `products` target set. -/
def productSales (st : State) (p : Product) : List Sale :=
  st.sales.filter (fun s => s.productIds.contains p.id)

/-- The fully filtered sale set of `Product.get_best_discount`
(`models.py` lines 53-72): active-window filter, then the
authenticated / anonymous applicability filter. -/
def applicableSales (st : State) (p : Product) (user : Option User) (now : Int) :
    List Sale :=
  let active := (productSales st p).filter (saleActive now)
  match user with
  | some u => active.filter (fun s => saleAllowsUser s u)
  | none => active.filter saleIsPublic

/-- Maximum of a list of discounts, `0` on the empty list — mirroring
`if applicable_sales.exists(): return max(...)` / `return Decimal("0.00")`
in `models.py` lines 74-76. -/
def listMax : List Int → Int
  | [] => 0
  | d :: ds => ds.foldl max d

/-- Embeds `Product.get_best_discount` (`models.py` lines 51-76). -/
def get_best_discount (st : State) (p : Product) (user : Option User) (now : Int) :
    Int :=
  listMax ((applicableSales st p user now).map (fun s => s.discount100))

/-- Modelled from the spec: the Discount Resolver's step 1 selects "all
sales whose target set includes `product` directly or via any of the
product's categories".  This candidate-set definition follows the
spec's words; the source's `productSales` uses only the direct
`products` attachment.  It exists to compare the two. -/
def productSales_spec (st : State) (p : Product) : List Sale :=
  st.sales.filter (fun s =>
    s.productIds.contains p.id
      || s.categoryIds.any (fun c => p.categories.contains c))

/-- Modelled from the spec: the Discount Resolver with the spec's
candidate set (direct or category-attached sales), steps 2-4 as in the
source. -/
def get_best_discount_spec (st : State) (p : Product) (user : Option User)
    (now : Int) : Int :=
  let active := (productSales_spec st p).filter (saleActive now)
  let appl := match user with
    | some u => active.filter (fun s => saleAllowsUser s u)
    | none => active.filter saleIsPublic
  listMax (appl.map (fun s => s.discount100))

/-! ### Checkout (`create_order`, `views.py` lines 489-571) -/

/-- The outcome of `create_order`: the 400 "User does not have a
bucket", the 400 "Bucket is empty", the 400 "Not enough stock for
product '<name>'. Only <n> available." (carrying the product's name and
available count, as the message does), or the 201 with the serialized
order. -/
inductive CheckoutResult where
  | noBucket
  | emptyBucket
  | insufficientStock (productName : String) (available : Int)
  | success (order : Order)
deriving Repr, DecidableEq

/-- The inventory-check loop of `create_order` (`views.py` lines
514-526): returns the first line item's product whose requested
`number` exceeds `available_items`, if any. -/
def stockCheck (st : State) : List LineItem → Option Product
  | [] => none
  | it :: its =>
    let p := getProduct st it.productId
    if p.availableItems < (it.number : Int) then some p else stockCheck st its

/-- One `OrderItem` snapshot as built in the body of the order loop
(`views.py` lines 533-546): discount via `get_best_discount`,
`final_price = price * (Decimal("1.00") - discount)` (unrounded, scale
`10^-4`), name and quantity copied. -/
def snapshotItem (st : State) (user : Option User) (now : Int) (it : LineItem) :
    OrderItem :=
  let p := getProduct st it.productId
  let d := get_best_discount st p user now
  { productId := p.id
    name := p.name
    price_e4 := p.priceCents * (100 - d)
    discount100 := d
    number := it.number }

/-- The relative stock decrement `product.available_items =
F("available_items") - item.number` (`views.py` lines 550-551), applied
to the product table. -/
def decrementStock (ps : List Product) (pid : Nat) (n : Nat) : List Product :=
  ps.map (fun p =>
    if p.id = pid then { p with availableItems := p.availableItems - (n : Int) }
    else p)

/-- The order loop of `create_order` (`views.py` lines 533-551): builds
the order items, accumulates `order_total += final_price * item.number`,
and applies the per-item stock decrements to the product table. -/
def processItems (st : State) (user : Option User) (now : Int) :
    List LineItem → List Product → List OrderItem × Int × List Product
  | [], ps => ([], 0, ps)
  | it :: its, ps =>
    let oi := snapshotItem st user now it
    let rest := processItems st user now its (decrementStock ps it.productId it.number)
    (oi :: rest.1, oi.price_e4 * (it.number : Int) + rest.2.1, rest.2.2)

/-- Embeds `create_order` (`views.py` lines 489-571): no bucket → 400;
empty bucket → 400; failed stock validation → 400 before any mutation;
otherwise create the order with its item snapshots and total, decrement
stock, clear the bucket, and append the order. -/
def create_order (st : State) (user : Option User) (now : Int) :
    CheckoutResult × State :=
  match st.bucket with
  | none => (.noBucket, st)
  | some items =>
    if items.isEmpty then (.emptyBucket, st)
    else
      match stockCheck st items with
      | some p => (.insufficientStock p.name p.availableItems, st)
      | none =>
        let r := processItems st user now items st.products
        let order : Order := { total_e4 := r.2.1, items := r.1 }
        (.success order,
          { st with products := r.2.2, bucket := some [],
                    orders := st.orders ++ [order] })

/-! ### Bucket operations (`views.py`) -/

/-- The outcome of the add-to-bucket endpoints: 400 for a non-positive
`number`, 404 for an unknown product, or 200 with the bucket total. -/
inductive AddResult where
  | invalidNumber
  | productNotFound
  | ok (totalCents : Int)
deriving Repr, DecidableEq

/-- Discriminates the 200 outcome of the add endpoints. -/
def AddResult.isOk : AddResult → Bool
  | .ok _ => true
  | _ => false

/-- The running bucket total `sum(item.product.price * item.number)`
(`views.py` lines 206-209), in cents. -/
def bucketTotalCents (st : State) (items : List LineItem) : Int :=
  items.foldl (fun a it => a + (getProduct st it.productId).priceCents * (it.number : Int)) 0

/-- The repeat-add branch `bucket_product.number += number` of
`add_to_bucket` (`views.py` lines 202-204), applied to the row whose
product id matches. -/
def bumpNumber (items : List LineItem) (pid : Nat) (n : Nat) : List LineItem :=
  items.map (fun it =>
    if it.productId = pid then { it with number := it.number + n } else it)

/-- The quantity-replace write `bucket_product.number = number`
(`views.py` lines 452-453), applied to the row whose product id
matches. -/
def setNumber (items : List LineItem) (pid : Nat) (n : Nat) : List LineItem :=
  items.map (fun it => if it.productId = pid then { it with number := n } else it)

/-- Embeds `add_to_bucket` (`views.py` lines 159-223): validate
`number > 0`, 404 on unknown product, lazily create the bucket, then
`get_or_create` the line item — an existing row is incremented by
`number`, a fresh row is created with the field default `number = 1`
(the request's `number` is not passed to `get_or_create`).  No stock
check anywhere. -/
def add_to_bucket (st : State) (pid : Nat) (n : Int) : AddResult × State :=
  if n ≤ 0 then (.invalidNumber, st)
  else
    match st.products.find? (fun p => p.id = pid) with
    | none => (.productNotFound, st)
    | some _ =>
      let items := st.bucket.getD []
      let items' :=
        if items.any (fun it => it.productId = pid) then bumpNumber items pid n.toNat
        else items ++ [⟨pid, 1⟩]
      let st' := { st with bucket := some items' }
      (.ok (bucketTotalCents st' items'), st')

/-- Embeds `BucketProductViewSet.create` (`views.py` lines 369-416),
the V2 add endpoint; its body performs the same steps as
`add_to_bucket`. -/
def bucketProductCreate (st : State) (pid : Nat) (n : Int) : AddResult × State :=
  if n ≤ 0 then (.invalidNumber, st)
  else
    match st.products.find? (fun p => p.id = pid) with
    | none => (.productNotFound, st)
    | some _ =>
      let items := st.bucket.getD []
      let items' :=
        if items.any (fun it => it.productId = pid) then bumpNumber items pid n.toNat
        else items ++ [⟨pid, 1⟩]
      let st' := { st with bucket := some items' }
      (.ok (bucketTotalCents st' items'), st')

/-- The outcome of the V2 quantity-update endpoint: 400 for a
non-positive `number`, 404 when the product is not in the bucket, 400
"Only <n> items available for this product.", or 200 with the bucket
total. -/
inductive UpdateResult where
  | invalidNumber
  | notInBucket
  | stockLimit (available : Int)
  | ok (totalCents : Int)
deriving Repr, DecidableEq

/-- Embeds `BucketProductViewSet.update` (`views.py` lines 418-471):
validate `number > 0`; inside the transaction, lazily create the
bucket, look the line item up (a miss raises `Http404`, rolling the
transaction — and the lazy bucket creation — back), refuse
`number > product.available_items` (an early return, which commits the
lazy bucket creation), else replace the stored quantity. -/
def bucketProductUpdate (st : State) (pid : Nat) (n : Int) : UpdateResult × State :=
  if n ≤ 0 then (.invalidNumber, st)
  else
    let items := st.bucket.getD []
    match items.find? (fun it => it.productId = pid) with
    | none => (.notInBucket, st)
    | some _ =>
      let p := getProduct st pid
      if p.availableItems < n then
        (.stockLimit p.availableItems, { st with bucket := some items })
      else
        let items' := setNumber items pid n.toNat
        let st' := { st with bucket := some items' }
        (.ok (bucketTotalCents st' items'), st')

/-- The quantity of a product ordered by a list of line items (the sum
of the matching items' numbers). -/
def orderedQty : List LineItem → Nat → Int
  | [], _ => 0
  | it :: its, pid =>
    (if it.productId = pid then (it.number : Int) else 0) + orderedQty its pid

/-- Modelled from the spec: "each term rounded to 2 decimal places" —
rounds a scale-`10^-4` amount to the nearest cent (a multiple of 100 at
this scale). -/
def round2_e4 (x : Int) : Int := ((x + 50) / 100) * 100

/-- Modelled from the spec: the order-total formula with each line
item's discounted unit price rounded to 2 decimal places before it is
multiplied by the quantity and accumulated. -/
def specRoundedTotal (st : State) (user : Option User) (now : Int)
    (items : List LineItem) : Int :=
  (items.map (fun it =>
    round2_e4 (snapshotItem st user now it).price_e4 * (it.number : Int))).sum

/-! ### Concrete example states used by the witnesses -/

/-- An authenticated requester with no group memberships. -/
def userEx : User := ⟨7, []⟩

/-- The spec's checkout scenario: Product A (price 100.00, stock 5) and
Product B (price 50.00, stock 1); one active public 10% sale on A; the
bucket holds 2 of A and 1 of B. -/
def stC4ex : State :=
  { products := [⟨1, "A", 10000, 5, []⟩, ⟨2, "B", 5000, 1, []⟩]
    sales := [⟨10, 0, 100, [1], [], [], []⟩]
    bucket := some [⟨1, 2⟩, ⟨2, 1⟩]
    orders := [] }

/-- A product priced 33.33 with an active public 10% sale and 3 in the
bucket: the discounted unit price 29.997 does not round away. -/
def stC3ex : State :=
  { products := [⟨1, "P", 3333, 5, []⟩]
    sales := [⟨10, 0, 100, [1], [], [], []⟩]
    bucket := some [⟨1, 3⟩]
    orders := [] }

/-- An active public 20% sale attached only to category 10, never to a
product directly. -/
def saleC2ex : Sale := ⟨20, 0, 100, [], [10], [], []⟩

/-- A product in category 10 while `saleC2ex` is the only sale. -/
def stC2ex : State :=
  { products := [⟨1, "P", 10000, 5, [10]⟩]
    sales := [saleC2ex]
    bucket := none
    orders := [] }

/-- The spec's insufficient-stock scenario: stock 2, requested 3. -/
def stC1ex : State :=
  { products := [⟨1, "A", 10000, 2, []⟩]
    sales := []
    bucket := some [⟨1, 3⟩]
    orders := [] }

/-- A user without a `Bucket` row. -/
def stNoBucket : State := ⟨[], [], none, []⟩

/-- A user whose bucket exists but holds no line items. -/
def stEmptyBucket : State := ⟨[], [], some [], []⟩

/-- A product that is completely out of stock. -/
def stZeroStock : State := ⟨[⟨1, "Z", 100, 0, []⟩], [], none, []⟩

/-! ### Helper lemmas -/

theorem stockCheck_eq_none (st : State) (items : List LineItem) :
    stockCheck st items = none ↔
      ∀ it ∈ items, (it.number : Int) ≤ (getProduct st it.productId).availableItems := by
  induction items with
  | nil => simp [stockCheck]
  | cons it its ih =>
    simp only [stockCheck, List.mem_cons]
    split
    · constructor
      · intro h; cases h
      · intro h
        have := h it (Or.inl rfl)
        omega
    · rename_i hle
      rw [ih]
      constructor
      · rintro h it' (rfl | hm)
        · omega
        · exact h it' hm
      · intro h it' hm; exact h it' (Or.inr hm)

theorem stockCheck_some_spec (st : State) (items : List LineItem) (p : Product)
    (h : stockCheck st items = some p) :
    ∃ it ∈ items, p = getProduct st it.productId ∧
      p.availableItems < (it.number : Int) := by
  induction items with
  | nil => simp [stockCheck] at h
  | cons it its ih =>
    simp only [stockCheck] at h
    split at h
    · rename_i hlt
      cases h
      exact ⟨it, List.mem_cons_self it its, rfl, hlt⟩
    · obtain ⟨it', hm, hp, hlt⟩ := ih h
      exact ⟨it', List.mem_cons_of_mem it hm, hp, hlt⟩

theorem processItems_fst (st : State) (u : Option User) (now : Int)
    (items : List LineItem) : ∀ ps : List Product,
    (processItems st u now items ps).1 = items.map (snapshotItem st u now) := by
  induction items with
  | nil => intro ps; simp [processItems]
  | cons it its ih => intro ps; simp [processItems, ih]

theorem processItems_total (st : State) (u : Option User) (now : Int)
    (items : List LineItem) : ∀ ps : List Product,
    (processItems st u now items ps).2.1 =
      (items.map (fun it =>
        (snapshotItem st u now it).price_e4 * (it.number : Int))).sum := by
  induction items with
  | nil => intro ps; simp [processItems]
  | cons it its ih => intro ps; simp [processItems, ih]

theorem dec_step (it : LineItem) (its : List LineItem) (p : Product) :
    (fun q : Product =>
        { q with availableItems := q.availableItems - orderedQty its q.id })
      (if p.id = it.productId then
        { p with availableItems := p.availableItems - (it.number : Int) }
      else p)
    = { p with availableItems := p.availableItems - orderedQty (it :: its) p.id } := by
  by_cases h : p.id = it.productId
  · rw [if_pos h]
    simp only [orderedQty, if_pos h.symm]
    congr 1
    omega
  · rw [if_neg h]
    have h' : ¬ it.productId = p.id := fun hc => h hc.symm
    simp only [orderedQty, if_neg h']
    congr 1
    omega

theorem processItems_products (st : State) (u : Option User) (now : Int)
    (items : List LineItem) : ∀ ps : List Product,
    (processItems st u now items ps).2.2 =
      ps.map (fun p =>
        { p with availableItems := p.availableItems - orderedQty items p.id }) := by
  induction items with
  | nil =>
    intro ps
    have h : (fun p : Product =>
        { p with availableItems := p.availableItems - orderedQty [] p.id }) =
        fun p => p := by
      funext p; simp [orderedQty]
    simp [processItems, h]
  | cons it its ih =>
    intro ps
    simp only [processItems]
    rw [ih]
    simp only [decrementStock, List.map_map]
    apply List.map_congr_left
    intro p _
    exact dec_step it its p

theorem le_foldl_max (l : List Int) (a : Int) : a ≤ l.foldl max a := by
  induction l generalizing a with
  | nil => simp
  | cons x xs ih =>
    simp only [List.foldl_cons]
    exact le_trans (le_max_left a x) (ih (max a x))

theorem mem_le_foldl_max (l : List Int) (a x : Int) (hx : x ∈ l) :
    x ≤ l.foldl max a := by
  induction l generalizing a with
  | nil => cases hx
  | cons y ys ih =>
    simp only [List.foldl_cons]
    rcases List.mem_cons.mp hx with rfl | hm
    · exact le_trans (le_max_right a x) (le_foldl_max ys (max a x))
    · exact ih (max a y) hm

theorem foldl_max_cases (l : List Int) (a : Int) :
    l.foldl max a = a ∨ l.foldl max a ∈ l := by
  induction l generalizing a with
  | nil => left; rfl
  | cons x xs ih =>
    simp only [List.foldl_cons]
    rcases ih (max a x) with h | h
    · rw [h]
      rcases max_choice a x with h' | h'
      · left; exact h'
      · right; rw [h']; exact List.mem_cons_self x xs
    · right; exact List.mem_cons_of_mem x h

theorem listMax_le (l : List Int) (x : Int) (hx : x ∈ l) : x ≤ listMax l := by
  cases l with
  | nil => cases hx
  | cons d ds =>
    simp only [listMax]
    rcases List.mem_cons.mp hx with rfl | hm
    · exact le_foldl_max ds x
    · exact mem_le_foldl_max ds d x hm

theorem listMax_mem_or_zero (l : List Int) : listMax l = 0 ∨ listMax l ∈ l := by
  cases l with
  | nil => left; rfl
  | cons d ds =>
    simp only [listMax]
    rcases foldl_max_cases ds d with h | h
    · right; rw [h]; exact List.mem_cons_self d ds
    · right; exact List.mem_cons_of_mem d h

theorem find?_eq_some_of_nodup (ps : List Product)
    (hnd : (ps.map Product.id).Nodup) (p : Product) (hp : p ∈ ps) :
    ps.find? (fun q => q.id = p.id) = some p := by
  induction ps with
  | nil => cases hp
  | cons q qs ih =>
    simp only [List.map_cons, List.nodup_cons] at hnd
    rcases List.mem_cons.mp hp with rfl | hm
    · simp [List.find?]
    · have hne : ¬ (q.id = p.id) := by
        intro hc
        exact hnd.1 (hc ▸ List.mem_map_of_mem Product.id hm)
      simp only [List.find?]
      rw [decide_eq_false hne]
      exact ih hnd.2 hm

theorem orderedQty_eq_zero (items : List LineItem) (pid : Nat)
    (h : ∀ it ∈ items, it.productId ≠ pid) : orderedQty items pid = 0 := by
  induction items with
  | nil => rfl
  | cons it its ih =>
    simp only [orderedQty]
    rw [if_neg (h it (List.mem_cons_self it its)),
      ih fun it' hm => h it' (List.mem_cons_of_mem it hm)]
    omega

theorem orderedQty_of_pairwise (items : List LineItem)
    (hpw : items.Pairwise (fun a b => a.productId ≠ b.productId))
    (it : LineItem) (hit : it ∈ items) :
    orderedQty items it.productId = (it.number : Int) := by
  induction items with
  | nil => cases hit
  | cons a its ih =>
    rcases List.pairwise_cons.mp hpw with ⟨ha, hpw'⟩
    rcases List.mem_cons.mp hit with rfl | hm
    · simp only [orderedQty, if_true]
      rw [orderedQty_eq_zero its it.productId fun b hb => (ha b hb).symm]
      omega
    · simp only [orderedQty]
      rw [if_neg (ha it hm), ih hpw' hm]
      omega

theorem orderedQty_cases (items : List LineItem)
    (hpw : items.Pairwise (fun a b => a.productId ≠ b.productId)) (pid : Nat) :
    orderedQty items pid = 0 ∨
      ∃ it ∈ items, it.productId = pid ∧ orderedQty items pid = (it.number : Int) := by
  by_cases h : ∀ it ∈ items, it.productId ≠ pid
  · left; exact orderedQty_eq_zero items pid h
  · right
    push_neg at h
    obtain ⟨it, hm, hpid⟩ := h
    refine ⟨it, hm, hpid, ?_⟩
    rw [← hpid]
    exact orderedQty_of_pairwise items hpw it hm

theorem create_order_success_eq (st : State) (u : Option User) (now : Int)
    (items : List LineItem) (hb : st.bucket = some items) (hne : items ≠ [])
    (hchk : stockCheck st items = none) :
    create_order st u now =
      (.success
        { total_e4 := (items.map (fun it =>
            (snapshotItem st u now it).price_e4 * (it.number : Int))).sum,
          items := items.map (snapshotItem st u now) },
        { st with
            products := st.products.map (fun p =>
              { p with availableItems := p.availableItems - orderedQty items p.id }),
            bucket := some [],
            orders := st.orders ++
              [{ total_e4 := (items.map (fun it =>
                    (snapshotItem st u now it).price_e4 * (it.number : Int))).sum,
                 items := items.map (snapshotItem st u now) }] }) := by
  have hemp : items.isEmpty = false := by
    cases items with
    | nil => exact absurd rfl hne
    | cons a l => rfl
  simp only [create_order, hb, hemp, Bool.false_eq_true, if_false, hchk]
  rw [processItems_fst, processItems_total, processItems_products]

theorem create_order_fail_state (st : State) (u : Option User) (now : Int)
    (r : CheckoutResult) (hr : (create_order st u now).1 = r)
    (hfail : ∀ o : Order, r ≠ .success o) :
    (create_order st u now).2 = st := by
  unfold create_order at hr ⊢
  cases hb : st.bucket with
  | none => simp [hb]
  | some items =>
    simp only [hb] at hr ⊢
    by_cases hemp : items.isEmpty
    · simp [hemp]
    · simp only [hemp, Bool.false_eq_true, if_false] at hr ⊢
      cases hsc : stockCheck st items with
      | some p => simp [hsc]
      | none =>
        simp only [hsc] at hr
        exact absurd hr.symm (hfail _)

theorem create_order_success_bucket (st : State) (u : Option User) (now : Int)
    (o : Order) (h : (create_order st u now).1 = .success o) :
    (create_order st u now).2.bucket = some [] := by
  unfold create_order at h ⊢
  cases hb : st.bucket with
  | none => simp [hb] at h
  | some items =>
    simp only [hb] at h ⊢
    by_cases hemp : items.isEmpty
    · simp [hemp] at h
    · simp only [hemp, Bool.false_eq_true, if_false] at h ⊢
      cases hsc : stockCheck st items with
      | some p => simp [hsc] at h
      | none => simp [hsc]

theorem updated_productId (pid : Nat) (g : Nat → Nat) (it : LineItem) :
    (if it.productId = pid then { it with number := g it.number } else it).productId
      = it.productId := by
  by_cases h : it.productId = pid <;> simp [h]

theorem filter_pid_map_nil (items : List LineItem) (pid : Nat)
    (f : LineItem → LineItem) (hid : ∀ it, (f it).productId = it.productId)
    (h : ∀ it ∈ items, it.productId ≠ pid) :
    (items.map f).filter (fun it => decide (it.productId = pid)) = [] := by
  rw [List.filter_eq_nil_iff]
  intro it hm
  obtain ⟨a, ha, rfl⟩ := List.mem_map.mp hm
  simp [hid a, h a ha]

theorem filter_update_eq (items : List LineItem) (pid : Nat) (g : Nat → Nat)
    (q : Nat) (hnd : (items.map LineItem.productId).Nodup)
    (hmem : (⟨pid, q⟩ : LineItem) ∈ items) :
    (items.map (fun it =>
      if it.productId = pid then { it with number := g it.number } else it)).filter
        (fun it => decide (it.productId = pid)) = [⟨pid, g q⟩] := by
  induction items with
  | nil => cases hmem
  | cons a its ih =>
    simp only [List.map_cons, List.nodup_cons] at hnd
    by_cases h : a.productId = pid
    · have hnotin : pid ∉ its.map LineItem.productId := by rw [← h]; exact hnd.1
      have ha : a = ⟨pid, q⟩ := by
        rcases List.mem_cons.mp hmem with h' | h'
        · exact h'.symm
        · exact absurd (List.mem_map_of_mem LineItem.productId h') hnotin
      subst ha
      simp only [List.map_cons, List.filter_cons, if_pos rfl]
      simp only [decide_True, if_true]
      rw [filter_pid_map_nil its pid _ (updated_productId pid g)
        (fun it hm => fun hc => hnotin (hc ▸ List.mem_map_of_mem LineItem.productId hm))]
    · have hmem' : (⟨pid, q⟩ : LineItem) ∈ its := by
        rcases List.mem_cons.mp hmem with h' | h'
        · exact absurd (congrArg LineItem.productId h'.symm) h
        · exact h'
      simp only [List.map_cons, List.filter_cons, if_neg h]
      rw [decide_eq_false h]
      exact ih hnd.2 hmem'

theorem closed_eq_not_public (s : Sale) : s.is_closed_sale = !saleIsPublic s := by
  simp [Sale.is_closed_sale, saleIsPublic]

theorem find?_map_dec (items : List LineItem) (ps : List Product) (pid : Nat)
    (p : Product) (hfind : ps.find? (fun q => q.id = pid) = some p) :
    (ps.map (fun q =>
      { q with availableItems := q.availableItems - orderedQty items q.id })).find?
        (fun q => q.id = pid)
      = some { p with availableItems := p.availableItems - orderedQty items p.id } := by
  induction ps with
  | nil => simp [List.find?] at hfind
  | cons a ps ih =>
    simp only [List.find?] at hfind
    simp only [List.map_cons, List.find?]
    cases hda : decide (a.id = pid) with
    | true =>
      rw [hda] at hfind
      have hap : a = p := by simpa using hfind
      subst hap
      rfl
    | false =>
      rw [hda] at hfind
      exact ih hfind

/-! ### The claims -/

/-- C1: for every bucket containing a line item whose requested quantity
exceeds its product's `available_items`, checkout fails with the
insufficient-stock error reporting that product and its available count,
and the state — orders, order items, every product's `available_items`,
and the bucket's line items — is left unchanged. -/
theorem checkout_insufficient_stock_atomic (st : State) (u : Option User)
    (now : Int) (items : List LineItem) (hb : st.bucket = some items)
    (hviol : ∃ it ∈ items,
      (getProduct st it.productId).availableItems < (it.number : Int)) :
    ∃ p, (∃ it ∈ items, p = getProduct st it.productId ∧
        p.availableItems < (it.number : Int)) ∧
      create_order st u now = (.insufficientStock p.name p.availableItems, st) := by
  cases hsc : stockCheck st items with
  | none =>
    exfalso
    obtain ⟨it, hm, hlt⟩ := hviol
    have := (stockCheck_eq_none st items).mp hsc it hm
    omega
  | some p =>
    refine ⟨p, stockCheck_some_spec st items p hsc, ?_⟩
    have hne : items ≠ [] := by
      rintro rfl
      obtain ⟨it, hm, _⟩ := hviol
      cases hm
    have hemp : items.isEmpty = false := by
      cases items with
      | nil => exact absurd rfl hne
      | cons a l => rfl
    simp [create_order, hb, hemp, hsc]

/-- Witness for C1, on the spec's scenario: stock 2, requested 3. -/
theorem checkout_insufficient_stock_atomic_witness :
    ∃ p, (∃ it ∈ [(⟨1, 3⟩ : LineItem)], p = getProduct stC1ex it.productId ∧
        p.availableItems < (it.number : Int)) ∧
      create_order stC1ex (some userEx) 0 =
        (.insufficientStock p.name p.availableItems, stC1ex) :=
  checkout_insufficient_stock_atomic stC1ex (some userEx) 0 [⟨1, 3⟩] rfl
    (by decide)

/-- C2: the discount resolver's candidate set misses category-attached
sales.  At a concrete state with a single active public 20% sale
attached only to one of the product's categories, the source's
`get_best_discount` returns `0.00` while the spec-modelled resolver
(target set includes the product directly or via any of its categories)
returns `0.20`. -/
theorem category_attached_sale_ignored :
    stC2ex.sales = [saleC2ex] ∧
    saleActive 50 saleC2ex = true ∧
    saleIsPublic saleC2ex = true ∧
    saleC2ex.categoryIds.any
      (fun c => (getProduct stC2ex 1).categories.contains c) = true ∧
    saleC2ex.discount100 = 20 ∧
    get_best_discount stC2ex (getProduct stC2ex 1) none 50 = 0 ∧
    get_best_discount_spec stC2ex (getProduct stC2ex 1) none 50 = 20 := by
  decide

/-- C3 counterexample: a successful checkout (price 33.33, active public
10% sale, quantity 3) whose order total is 89.9910 — the unrounded
`33.33 * 0.90 * 3` — while the claim's formula (the per-item discounted
price rounded to 2 decimal places before multiplying by the quantity)
yields 90.00. -/
theorem order_total_not_per_item_rounded :
    (create_order stC3ex (some userEx) 50).1 =
      .success { total_e4 := 899910, items := [⟨1, "P", 299970, 10, 3⟩] } ∧
    specRoundedTotal stC3ex (some userEx) 50 [⟨1, 3⟩] = 900000 ∧
    ¬ (899910 : Int) = specRoundedTotal stC3ex (some userEx) 50 [⟨1, 3⟩] := by
  decide

/-- C3 (amended): for every successful checkout, the order's total is
the sum over line items of `(unit_price * (1 - discount)) * quantity`
computed at full precision (scale `10^-4`), with no per-item rounding
before the multiplication by the quantity. -/
theorem order_total_unrounded_sum (st : State) (u : Option User) (now : Int)
    (o : Order) (st' : State)
    (h : create_order st u now = (.success o, st')) :
    ∃ items, st.bucket = some items ∧
      o.total_e4 = (items.map (fun it =>
        (snapshotItem st u now it).price_e4 * (it.number : Int))).sum := by
  cases hb : st.bucket with
  | none => simp [create_order, hb] at h
  | some items =>
    refine ⟨items, rfl, ?_⟩
    by_cases hemp : items.isEmpty
    · simp [create_order, hb, hemp] at h
    · cases hsc : stockCheck st items with
      | some p => simp [create_order, hb, hemp, hsc] at h
      | none =>
        have hne : items ≠ [] := by
          cases items with
          | nil => simp at hemp
          | cons a l => intro hc; cases hc
        rw [create_order_success_eq st u now items hb hne hsc] at h
        have h1 := congrArg Prod.fst h
        simp only [CheckoutResult.success.injEq] at h1
        rw [← h1]

/-- Witness for the amended C3: on the 33.33 scenario the theorem
instantiates to the concrete unrounded total 89.9910. -/
theorem order_total_unrounded_sum_witness :
    ∃ items, stC3ex.bucket = some items ∧
      (899910 : Int) = (items.map (fun it =>
        (snapshotItem stC3ex (some userEx) 50 it).price_e4 * (it.number : Int))).sum :=
  order_total_unrounded_sum stC3ex (some userEx) 50
    { total_e4 := 899910, items := [⟨1, "P", 299970, 10, 3⟩] }
    (create_order stC3ex (some userEx) 50).2 (by decide)

/-- C4: when every line item's requested quantity is at most its
product's `available_items`, checkout succeeds; afterwards the bucket
has no line items, the order carries one snapshot per former line item
and the unrounded total, the order is appended, and each ordered
product's `available_items` has decreased by exactly the ordered
quantity. -/
theorem checkout_success_effects (st : State) (u : Option User) (now : Int)
    (items : List LineItem) (hb : st.bucket = some items) (hne : items ≠ [])
    (hstock : ∀ it ∈ items,
      (it.number : Int) ≤ (getProduct st it.productId).availableItems)
    (hpw : items.Pairwise (fun a b => a.productId ≠ b.productId))
    (hids : (st.products.map Product.id).Nodup)
    (hex : ∀ it ∈ items, ∃ p ∈ st.products, p.id = it.productId) :
    ∃ o st', create_order st u now = (.success o, st') ∧
      o.items = items.map (snapshotItem st u now) ∧
      o.total_e4 = (items.map (fun it =>
        (snapshotItem st u now it).price_e4 * (it.number : Int))).sum ∧
      st'.bucket = some [] ∧
      st'.orders = st.orders ++ [o] ∧
      ∀ it ∈ items, (getProduct st' it.productId).availableItems =
        (getProduct st it.productId).availableItems - (it.number : Int) := by
  have hchk : stockCheck st items = none := (stockCheck_eq_none st items).mpr hstock
  refine ⟨_, _, create_order_success_eq st u now items hb hne hchk,
    rfl, rfl, rfl, rfl, ?_⟩
  intro it hit
  obtain ⟨p, hp, hpid⟩ := hex it hit
  have hfind : st.products.find? (fun q => q.id = it.productId) = some p := by
    rw [← hpid]
    exact find?_eq_some_of_nodup st.products hids p hp
  have hget : getProduct st it.productId = p := by
    unfold getProduct
    rw [hfind]
    rfl
  have hfind' := find?_map_dec items st.products it.productId p hfind
  have hqty : orderedQty items it.productId = (it.number : Int) :=
    orderedQty_of_pairwise items hpw it hit
  rw [hget]
  simp only [getProduct, hfind', Option.getD_some]
  rw [hpid, hqty]

/-- Witness for C4, on the spec's scenario (A: 100.00, stock 5, qty 2,
10% public sale; B: 50.00, stock 1, qty 1): the theorem applies, and
concretely the total is 230.00, A's stock becomes 3, B's becomes 0, and
the bucket ends empty. -/
theorem checkout_success_effects_witness :
    (∃ o st', create_order stC4ex (some userEx) 50 = (.success o, st') ∧
      o.items = [⟨1, 2⟩, ⟨2, 1⟩].map (snapshotItem stC4ex (some userEx) 50) ∧
      o.total_e4 = ([⟨1, 2⟩, ⟨2, 1⟩].map (fun it =>
        (snapshotItem stC4ex (some userEx) 50 it).price_e4 * (it.number : Int))).sum ∧
      st'.bucket = some [] ∧
      st'.orders = stC4ex.orders ++ [o] ∧
      ∀ it ∈ [(⟨1, 2⟩ : LineItem), ⟨2, 1⟩],
        (getProduct st' it.productId).availableItems =
          (getProduct stC4ex it.productId).availableItems - (it.number : Int)) ∧
    (create_order stC4ex (some userEx) 50).1 =
      .success ⟨2300000, [⟨1, "A", 900000, 10, 2⟩, ⟨2, "B", 500000, 0, 1⟩]⟩ ∧
    (create_order stC4ex (some userEx) 50).2.products.map Product.availableItems
      = [3, 0] ∧
    (create_order stC4ex (some userEx) 50).2.bucket = some [] :=
  ⟨checkout_success_effects stC4ex (some userEx) 50 [⟨1, 2⟩, ⟨2, 1⟩] rfl
      (by decide) (by decide) (by decide) (by decide) (by decide),
    by decide, by decide, by decide⟩

/-- C5: `get_best_discount` bounds every applicable active sale's
discount from above, returns `0.00` when no applicable active sale
exists, and its value is either `0.00` or the discount of one applicable
active sale — never a sum of several. -/
theorem best_discount_is_max (st : State) (p : Product) (u : Option User)
    (now : Int) :
    (∀ s ∈ applicableSales st p u now,
      s.discount100 ≤ get_best_discount st p u now) ∧
    (applicableSales st p u now = [] → get_best_discount st p u now = 0) ∧
    (get_best_discount st p u now = 0 ∨
      ∃ s ∈ applicableSales st p u now,
        get_best_discount st p u now = s.discount100) := by
  refine ⟨?_, ?_, ?_⟩
  · intro s hs
    exact listMax_le _ _ (List.mem_map_of_mem (fun s => s.discount100) hs)
  · intro h
    simp [get_best_discount, h, listMax]
  · rcases listMax_mem_or_zero ((applicableSales st p u now).map
        (fun s => s.discount100)) with h | h
    · left; exact h
    · right
      obtain ⟨s, hs, hd⟩ := List.mem_map.mp h
      exact ⟨s, hs, hd.symm⟩

/-- Witness for C5: with no sales at all, the resolver returns 0. -/
theorem best_discount_is_max_witness :
    get_best_discount stNoBucket (getProduct stNoBucket 1) none 0 = 0 :=
  (best_discount_is_max stNoBucket (getProduct stNoBucket 1) none 0).2.1 rfl

/-- C6: for an anonymous requester the resolver's result only depends
on the non-closed (public) sales: deleting every closed sale from the
sale table does not change `get_best_discount` for `user = none`.  In
particular a closed sale never contributes a discount to an anonymous
requester, active window or not. -/
theorem anonymous_never_closed_sale (st : State) (p : Product) (now : Int) :
    get_best_discount st p none now =
      get_best_discount
        { st with sales := st.sales.filter (fun s => !s.is_closed_sale) }
        p none now := by
  simp only [get_best_discount, applicableSales, productSales]
  congr 1
  simp only [List.filter_filter]
  congr 1
  apply List.filter_congr
  intro s _
  cases hu : s.allowedUsers.isEmpty <;> cases hg : s.allowedGroups.isEmpty <;>
    simp [saleIsPublic, Sale.is_closed_sale, hu, hg]

/-- C7: checkout with no bucket fails with the no-bucket error, checkout
with an empty bucket fails with the empty-bucket error — in both cases
the state is unchanged — and a checkout retried immediately after a
successful one deterministically fails with the empty-bucket error. -/
theorem checkout_bucket_errors (st st2 : State) (u u2 u3 : Option User)
    (now now2 now3 : Int) (o : Order) :
    (st.bucket = none → create_order st u now = (.noBucket, st)) ∧
    (st.bucket = some [] → create_order st u now = (.emptyBucket, st)) ∧
    ((create_order st2 u2 now2).1 = .success o →
      create_order (create_order st2 u2 now2).2 u3 now3 =
        (.emptyBucket, (create_order st2 u2 now2).2)) := by
  refine ⟨?_, ?_, ?_⟩
  · intro h; simp [create_order, h]
  · intro h; simp [create_order, h]
  · intro h
    have hb := create_order_success_bucket st2 u2 now2 o h
    generalize hst : (create_order st2 u2 now2).2 = s at hb ⊢
    simp [create_order, hb]

/-- Witness for C7: the three cases at concrete states; the third
retries checkout right after the successful checkout of the C4
scenario. -/
theorem checkout_bucket_errors_witness :
    create_order stNoBucket (some userEx) 0 = (.noBucket, stNoBucket) ∧
    create_order stEmptyBucket (some userEx) 0 = (.emptyBucket, stEmptyBucket) ∧
    create_order (create_order stC4ex (some userEx) 50).2 (some userEx) 60 =
      (.emptyBucket, (create_order stC4ex (some userEx) 50).2) :=
  ⟨(checkout_bucket_errors stNoBucket stNoBucket (some userEx) (some userEx)
      (some userEx) 0 0 0 ⟨0, []⟩).1 rfl,
   (checkout_bucket_errors stEmptyBucket stEmptyBucket (some userEx)
      (some userEx) (some userEx) 0 0 0 ⟨0, []⟩).2.1 rfl,
   (checkout_bucket_errors stC4ex stC4ex (some userEx) (some userEx)
      (some userEx) 60 50 60
      ⟨2300000, [⟨1, "A", 900000, 10, 2⟩, ⟨2, "B", 500000, 0, 1⟩]⟩).2.2
      (by decide)⟩

theorem bumpNumber_map_pid (items : List LineItem) (pid n : Nat) :
    (bumpNumber items pid n).map LineItem.productId =
      items.map LineItem.productId := by
  simp only [bumpNumber, List.map_map]
  apply List.map_congr_left
  intro it _
  by_cases h : it.productId = pid <;> simp [h]

theorem find?_isSome_of_mem {α : Type} (l : List α) (p : α → Bool) (a : α)
    (ha : a ∈ l) (hp : p a = true) : ∃ b, l.find? p = some b := by
  cases hf : l.find? p with
  | some b => exact ⟨b, rfl⟩
  | none => exact absurd hp (by simpa using List.find?_eq_none.mp hf a ha)

/-- C8: `available_items` never becomes negative: every checkout outcome
leaves the product table non-negative whenever the initial table is
(product ids unique, at most one line item per product), and none of the
bucket operations writes product stock at all. -/
theorem stock_never_negative :
    (∀ st u now, (∀ p ∈ st.products, 0 ≤ p.availableItems) →
      (st.products.map Product.id).Nodup →
      (∀ items, st.bucket = some items →
        items.Pairwise (fun a b => a.productId ≠ b.productId)) →
      ∀ p ∈ (create_order st u now).2.products, 0 ≤ p.availableItems) ∧
    (∀ st pid n, (add_to_bucket st pid n).2.products = st.products) ∧
    (∀ st pid n, (bucketProductCreate st pid n).2.products = st.products) ∧
    (∀ st pid n, (bucketProductUpdate st pid n).2.products = st.products) := by
  refine ⟨?_, ?_, ?_, ?_⟩
  · intro st u now hpos hids hpw
    cases hres : (create_order st u now).1 with
    | noBucket =>
      rw [create_order_fail_state st u now _ hres (fun o h => by cases h)]
      exact hpos
    | emptyBucket =>
      rw [create_order_fail_state st u now _ hres (fun o h => by cases h)]
      exact hpos
    | insufficientStock nm av =>
      rw [create_order_fail_state st u now _ hres (fun o h => by cases h)]
      exact hpos
    | success o =>
      cases hb : st.bucket with
      | none => simp [create_order, hb] at hres
      | some items =>
        by_cases hemp : items.isEmpty
        · simp [create_order, hb, hemp] at hres
        · cases hsc : stockCheck st items with
          | some q => simp [create_order, hb, hemp, hsc] at hres
          | none =>
            have hne : items ≠ [] := by
              cases items with
              | nil => simp at hemp
              | cons a l => intro hc; cases hc
            rw [create_order_success_eq st u now items hb hne hsc]
            intro p hp
            obtain ⟨p0, hp0, rfl⟩ := List.mem_map.mp hp
            show 0 ≤ p0.availableItems - orderedQty items p0.id
            have hnn := hpos p0 hp0
            rcases orderedQty_cases items (hpw items hb) p0.id with h0 | hcase
            · omega
            · obtain ⟨it, hitm, hpid, heq⟩ := hcase
              have hle := (stockCheck_eq_none st items).mp hsc it hitm
              have hget : getProduct st it.productId = p0 := by
                unfold getProduct
                rw [hpid, find?_eq_some_of_nodup st.products hids p0 hp0]
                rfl
              rw [hget] at hle
              omega
  · intro st pid n
    unfold add_to_bucket
    by_cases hn : n ≤ 0
    · rw [if_pos hn]
    · rw [if_neg hn]
      cases hf : st.products.find? (fun p => p.id = pid) <;> rfl
  · intro st pid n
    unfold bucketProductCreate
    by_cases hn : n ≤ 0
    · rw [if_pos hn]
    · rw [if_neg hn]
      cases hf : st.products.find? (fun p => p.id = pid) <;> rfl
  · intro st pid n
    obtain ⟨prods, sls, bk, ords⟩ := st
    unfold bucketProductUpdate
    by_cases hn : n ≤ 0
    · rw [if_pos hn]
    · rw [if_neg hn]
      cases bk with
      | none => rfl
      | some items =>
        simp only [Option.getD_some]
        cases hf : items.find? (fun it => it.productId = pid) with
        | none => rfl
        | some it =>
          split
          · rfl
          · split <;> rfl

/-- Witness for C8: after the successful C4-scenario checkout, product 1
still has non-negative stock. -/
theorem stock_never_negative_witness :
    0 ≤ (getProduct (create_order stC4ex (some userEx) 50).2 1).availableItems := by
  have h := stock_never_negative.1 stC4ex (some userEx) 50 (by decide) (by decide)
    (fun items hitems => by
      rw [show stC4ex.bucket = some [⟨1, 2⟩, ⟨2, 1⟩] from rfl] at hitems
      injection hitems with h2
      rw [← h2]
      decide)
  exact h (getProduct (create_order stC4ex (some userEx) 50).2 1) (by decide)

/-- C9: both add-to-bucket endpoints perform no stock validation — for
any positive requested number and existing product they return the 200
result whatever `available_items` is — while the V2 quantity-update
endpoint refuses any new quantity exceeding `available_items`, leaving
the state unchanged. -/
theorem add_has_no_stock_check :
    (∀ st pid (n : Int) p, p ∈ st.products → p.id = pid → 0 < n →
      (add_to_bucket st pid n).1.isOk = true) ∧
    (∀ st pid (n : Int) p, p ∈ st.products → p.id = pid → 0 < n →
      (bucketProductCreate st pid n).1.isOk = true) ∧
    (∀ st items pid (n : Int), st.bucket = some items → 0 < n →
      (∃ it ∈ items, it.productId = pid) →
      (getProduct st pid).availableItems < n →
      bucketProductUpdate st pid n =
        (.stockLimit (getProduct st pid).availableItems, st)) := by
  refine ⟨?_, ?_, ?_⟩
  · intro st pid n p hp hpid hn
    obtain ⟨q, hq⟩ := find?_isSome_of_mem st.products (fun q => q.id = pid) p hp
      (by simp [hpid])
    unfold add_to_bucket
    rw [if_neg (show ¬ n ≤ 0 by omega), hq]
    rfl
  · intro st pid n p hp hpid hn
    obtain ⟨q, hq⟩ := find?_isSome_of_mem st.products (fun q => q.id = pid) p hp
      (by simp [hpid])
    unfold bucketProductCreate
    rw [if_neg (show ¬ n ≤ 0 by omega), hq]
    rfl
  · intro st items pid n hb hn hex hlt
    obtain ⟨it, hitm, hpid⟩ := hex
    obtain ⟨prods, sls, bk, ords⟩ := st
    simp only at hb hlt ⊢
    subst hb
    obtain ⟨q, hq⟩ := find?_isSome_of_mem items (fun it => it.productId = pid) it
      hitm (by simp [hpid])
    unfold bucketProductUpdate
    rw [if_neg (show ¬ n ≤ 0 by omega)]
    simp only [Option.getD_some]
    rw [hq]
    simp only [if_pos hlt]

/-- Witness for C9: adding 5 of an out-of-stock product succeeds and
puts a line item (of the creation-default quantity 1, itself exceeding
the stock 0) in the bucket; the V2 update refuses quantity 3 against
stock 2. -/
theorem add_has_no_stock_check_witness :
    (add_to_bucket stZeroStock 1 5).1.isOk = true ∧
    (add_to_bucket stZeroStock 1 5).2.bucket = some [⟨1, 1⟩] ∧
    (getProduct stZeroStock 1).availableItems = 0 ∧
    bucketProductUpdate stC1ex 1 3 =
      (.stockLimit (getProduct stC1ex 1).availableItems, stC1ex) ∧
    (getProduct stC1ex 1).availableItems = 2 := by
  refine ⟨?_, by decide, by decide, ?_, by decide⟩
  · exact add_has_no_stock_check.1 stZeroStock 1 5 ⟨1, "Z", 100, 0, []⟩
      (by decide) rfl (by decide)
  · exact add_has_no_stock_check.2.2 stC1ex [⟨1, 3⟩] 1 3 rfl (by decide)
      ⟨⟨1, 3⟩, by decide, rfl⟩ (by decide)

/-- C10: the bucket keeps at most one line item per product (adding
preserves uniqueness of product ids), a repeat add of a product already
stored with quantity `q` and request `n` leaves a single matching line
item with quantity `q + n`, and the V2 quantity update leaves a single
matching line item whose quantity is replaced by `n`. -/
theorem bucket_line_item_uniqueness :
    (∀ st pid (n : Int),
      (((st.bucket.getD []).map LineItem.productId).Nodup) →
      ((((add_to_bucket st pid n).2.bucket.getD []).map LineItem.productId).Nodup)) ∧
    (∀ st items pid q (n : Int), st.bucket = some items → 0 < n →
      (⟨pid, q⟩ : LineItem) ∈ items →
      (items.map LineItem.productId).Nodup →
      (∃ p ∈ st.products, p.id = pid) →
      ∃ t, add_to_bucket st pid n =
          (.ok t, { st with bucket := some (bumpNumber items pid n.toNat) }) ∧
        (bumpNumber items pid n.toNat).filter
          (fun it => decide (it.productId = pid)) = [⟨pid, q + n.toNat⟩]) ∧
    (∀ st items pid q (n : Int), st.bucket = some items → 0 < n →
      (⟨pid, q⟩ : LineItem) ∈ items →
      (items.map LineItem.productId).Nodup →
      n ≤ (getProduct st pid).availableItems →
      ∃ t, bucketProductUpdate st pid n =
          (.ok t, { st with bucket := some (setNumber items pid n.toNat) }) ∧
        (setNumber items pid n.toNat).filter
          (fun it => decide (it.productId = pid)) = [⟨pid, n.toNat⟩]) := by
  refine ⟨?_, ?_, ?_⟩
  · intro st pid n hnd
    unfold add_to_bucket
    by_cases hn : n ≤ 0
    · rw [if_pos hn]
      exact hnd
    · rw [if_neg hn]
      cases hf : st.products.find? (fun p => p.id = pid) with
      | none => exact hnd
      | some q =>
        simp only [Option.getD_some]
        by_cases hany : (st.bucket.getD []).any (fun it => it.productId = pid)
        · rw [if_pos hany]
          rw [bumpNumber_map_pid]
          exact hnd
        · rw [if_neg hany]
          rw [List.map_append]
          rw [List.nodup_append]
          refine ⟨hnd, List.nodup_singleton _, ?_⟩
          intro x hx hx1
          simp only [List.map_cons, List.map_nil, List.mem_singleton] at hx1
          subst hx1
          obtain ⟨a, ha, hap⟩ := List.mem_map.mp hx
          rw [Bool.not_eq_true] at hany
          have := List.any_eq_false.mp hany a ha
          simp [hap] at this
  · intro st items pid q n hb hn hmem hnd hex
    obtain ⟨p, hp, hpid⟩ := hex
    obtain ⟨pq, hpq⟩ := find?_isSome_of_mem st.products (fun r => r.id = pid) p hp
      (by simp [hpid])
    have hany : items.any (fun it => it.productId = pid) = true :=
      List.any_eq_true.mpr ⟨⟨pid, q⟩, hmem, by simp⟩
    obtain ⟨prods, sls, bk, ords⟩ := st
    simp only at hb hpq ⊢
    subst hb
    refine ⟨bucketTotalCents
        { products := prods, sales := sls,
          bucket := some (bumpNumber items pid n.toNat), orders := ords }
        (bumpNumber items pid n.toNat),
      ?_, filter_update_eq items pid (fun m => m + n.toNat) q hnd hmem⟩
    unfold add_to_bucket
    rw [if_neg (show ¬ n ≤ 0 by omega), hpq]
    simp only [Option.getD_some, hany, eq_self_iff_true, if_true]
  · intro st items pid q n hb hn hmem hnd hle
    obtain ⟨pq, hpq⟩ := find?_isSome_of_mem items (fun it => it.productId = pid)
      ⟨pid, q⟩ hmem (by simp)
    obtain ⟨prods, sls, bk, ords⟩ := st
    simp only at hb hle ⊢
    subst hb
    refine ⟨bucketTotalCents
        { products := prods, sales := sls,
          bucket := some (setNumber items pid n.toNat), orders := ords }
        (setNumber items pid n.toNat),
      ?_, filter_update_eq items pid (fun _ => n.toNat) q hnd hmem⟩
    unfold bucketProductUpdate
    rw [if_neg (show ¬ n ≤ 0 by omega)]
    simp only [Option.getD_some]
    rw [hpq]
    rw [if_neg (show ¬ (getProduct ⟨prods, sls, some items, ords⟩ pid).availableItems < n
      by omega)]

/-- Witness for C10: repeat-adding 5 of product 1 (already stored with
quantity 3) leaves the single line item with quantity 8. -/
theorem bucket_line_item_uniqueness_witness :
    (∃ t, add_to_bucket stC1ex 1 5 =
        (.ok t, { stC1ex with bucket := some (bumpNumber [⟨1, 3⟩] 1 (5 : Int).toNat) }) ∧
      (bumpNumber [⟨1, 3⟩] 1 (5 : Int).toNat).filter
        (fun it => decide (it.productId = 1)) = [⟨1, 3 + (5 : Int).toNat⟩]) ∧
    bumpNumber [⟨1, 3⟩] 1 (5 : Int).toNat = [⟨1, 8⟩] := by
  refine ⟨?_, by decide⟩
  exact bucket_line_item_uniqueness.2.1 stC1ex [⟨1, 3⟩] 1 3 5 rfl (by decide)
    (by decide) (by decide) ⟨⟨1, "A", 10000, 2, []⟩, by decide, rfl⟩

end Marketplace
